import Mathlib

/-!
Shallow embedding of the Notir notification hub (src/single.rs, src/broadcast.rs).

Bytes are modelled as `List Nat`, WebSocket frames as the `Message` variant
type, per-connection unbounded outbound queues as lists held next to a
liveness flag (a send on a closed queue fails, a send on a live queue appends),
and the process-wide registries (`ONLINE_USERS`, `CALLBACK_CHANNELS`,
`BROADCAST_USERS`) as association lists keyed by identifier.
-/

namespace Notir

/-- A WebSocket frame as constructed by the publish handlers
(`Message::text` / `Message::binary` in salvo). Text carries the UTF-8
validated bytes of the body. -/
inductive Message where
  | text (payload : List Nat)
  | binary (payload : List Nat)
  deriving DecidableEq, Repr

/-- Body of an HTTP response: absent, a fixed string, or raw bytes. -/
inductive RespBody where
  | none
  | str (s : String)
  | bytes (b : List Nat)
  deriving DecidableEq, Repr

/-- The observable part of the HTTP response a publish handler produces:
status code, body, and the content-type header when the handler sets one. -/
structure Resp where
  status : Nat
  body : RespBody
  contentType : Option String
  deriving DecidableEq, Repr

/-- Whether the first character list is a prefix of the second
(Rust `str::starts_with`, spelled out on characters). -/
def strHasPrefixChars : List Char → List Char → Bool
  | [], _ => true
  | _ :: _, [] => false
  | p :: ps, c :: cs => p == c && strHasPrefixChars ps cs

/-- The check `content_type_str.starts_with("application/json") ||
content_type_str.starts_with("text/")` from both publish handlers. -/
def contentTypeIsTextual (ct : String) : Bool :=
  strHasPrefixChars "application/json".data ct.data ||
    strHasPrefixChars "text/".data ct.data

/-- Whether `b2` is a UTF-8 continuation byte (`0x80..=0xBF`). -/
def isCont (b : Nat) : Bool := 0x80 ≤ b && b ≤ 0xBF

/-- UTF-8 validity of a byte sequence, as decided by Rust's
`String::from_utf8`: ASCII, 2-byte `C2..DF`, 3-byte `E0/E1..EC/ED/EE..EF`
with overlong and surrogate exclusion, 4-byte `F0/F1..F3/F4` with the
`U+10FFFF` bound. -/
def validUtf8 : List Nat → Bool
  | [] => true
  | b :: rest =>
    if b ≤ 0x7F then validUtf8 rest
    else match rest with
    | [] => false
    | b2 :: rest2 =>
      if 0xC2 ≤ b && b ≤ 0xDF then isCont b2 && validUtf8 rest2
      else match rest2 with
      | [] => false
      | b3 :: rest3 =>
        if b == 0xE0 then (0xA0 ≤ b2 && b2 ≤ 0xBF) && isCont b3 && validUtf8 rest3
        else if (0xE1 ≤ b && b ≤ 0xEC) || b == 0xEE || b == 0xEF then
          isCont b2 && isCont b3 && validUtf8 rest3
        else if b == 0xED then (0x80 ≤ b2 && b2 ≤ 0x9F) && isCont b3 && validUtf8 rest3
        else match rest3 with
        | [] => false
        | b4 :: rest4 =>
          if b == 0xF0 then
            (0x90 ≤ b2 && b2 ≤ 0xBF) && isCont b3 && isCont b4 && validUtf8 rest4
          else if 0xF1 ≤ b && b ≤ 0xF3 then
            isCont b2 && isCont b3 && isCont b4 && validUtf8 rest4
          else if b == 0xF4 then
            (0x80 ≤ b2 && b2 ≤ 0x8F) && isCont b3 && isCont b4 && validUtf8 rest4
          else false

/-- Result of translating a request body into a frame. -/
inductive EncodeResult where
  | msg (m : Message)
  | invalidUtf8
  deriving DecidableEq, Repr

/-- The shared body-encoding step of the publish handlers: textual
content types attempt a UTF-8 decode (text frame on success, error on
failure), everything else yields a binary frame with the raw bytes. -/
def encodeMessage (ct : String) (body : List Nat) : EncodeResult :=
  if contentTypeIsTextual ct then
    if validUtf8 body then .msg (.text body) else .invalidUtf8
  else .msg (.binary body)

/-! ### Association-list registries -/

/-- Lookup in an association list (`DashMap::get` / `HashMap::get`). -/
def lookupKey {α : Type} : List (String × α) → String → Option α
  | [], _ => none
  | (k2, v) :: rest, k => if k2 = k then some v else lookupKey rest k

/-- Replace the value at a key, inserting at the end when absent. -/
def setKey {α : Type} : List (String × α) → String → α → List (String × α)
  | [], k, v => [(k, v)]
  | (k2, v2) :: rest, k, v =>
    if k2 = k then (k2, v) :: rest else (k2, v2) :: setKey rest k v

/-- Remove a key (`DashMap::remove` / `HashMap::remove`). -/
def removeKey {α : Type} (l : List (String × α)) (k : String) : List (String × α) :=
  l.filter (fun p => p.1 ≠ k)

/-- The pattern `map.entry(k).or_default()` followed by a modification `f` of the
per-key value (default `d` when the key is absent). -/
def updateKey {α : Type} : List (String × α) → String → (α → α) → α → List (String × α)
  | [], k, f, d => [(k, f d)]
  | (k2, v2) :: rest, k, f, d =>
    if k2 = k then (k2, f v2) :: rest else (k2, v2) :: updateKey rest k f d

/-! ### Single mode (src/single.rs) -/

/-- One connection's outbound queue as a publisher sees it: the
`mpsc::UnboundedSender` succeeds and appends while the writer task is
alive (`live = true`) and fails once the receiver is dropped. -/
structure ConnQ where
  live : Bool
  queue : List Message
  deriving DecidableEq, Repr

/-- The process-wide single-mode state: `ONLINE_USERS`
(identifier to connection-id/queue map) and `CALLBACK_CHANNELS`
(identifier to FIFO of pending reply-slot ids). -/
structure SingleState where
  onlineUsers : List (String × List (String × ConnQ))
  callbackChannels : List (String × List String)
  deriving DecidableEq, Repr

/-- The `Mode::Shot` send loop of `publish_message`: iterate over every
connection, send the frame to each, and collect the connection ids whose
send failed (`disconnected_conns`). Returns the updated connections and
the failed ids in iteration order. -/
def sendAllConns : List (String × ConnQ) → Message → List (String × ConnQ) × List String
  | [], _ => ([], [])
  | (cid, c) :: rest, m =>
    let (rest2, failed) := sendAllConns rest m
    if c.live then ((cid, { c with queue := c.queue ++ [m] }) :: rest2, failed)
    else ((cid, c) :: rest2, cid :: failed)

/-- The `Mode::PingPong` send loop of `publish_message`: iterate in order,
stop at the first connection whose send succeeds (`sent = true; break`),
collecting the failed connection ids seen before it. -/
def trySendFirst : List (String × ConnQ) → Message → List (String × ConnQ) × List String × Bool
  | [], _ => ([], [], false)
  | (cid, c) :: rest, m =>
    if c.live then ((cid, { c with queue := c.queue ++ [m] }) :: rest, [], true)
    else
      let (rest2, failed, sent) := trySendFirst rest m
      ((cid, c) :: rest2, cid :: failed, sent)

/-- The lazy-prune step shared by both publish branches: if any sends
failed, remove those connection ids, and if the identifier's connection
map is then empty remove the identifier from `ONLINE_USERS`. The
reply-slot FIFO is untouched on this path. -/
def pruneAfterSend (users : List (String × List (String × ConnQ))) (uid : String)
    (conns2 : List (String × ConnQ)) (failed : List String) :
    List (String × List (String × ConnQ)) :=
  if failed.isEmpty then setKey users uid conns2
  else
    let conns3 := conns2.filter (fun p => !(failed.contains p.1))
    if conns3.isEmpty then removeKey users uid
    else setKey users uid conns3

/-- Handler `publish_message` in `Mode::Shot`: empty id is 400; unknown id is 404
"subscriber id not found"; otherwise encode the body (400 on invalid
UTF-8 under a textual content type), send to every connection, lazily
prune the failures, and answer 200 with no body. -/
def publishShot (st : SingleState) (uid ct : String) (body : List Nat) :
    SingleState × Resp :=
  if uid = "" then
    (st, ⟨400, .str "Missing 'id' query parameter for /pub", .none⟩)
  else
    match lookupKey st.onlineUsers uid with
    | some conns =>
      match encodeMessage ct body with
      | .invalidUtf8 => (st, ⟨400, .str "Invalid UTF-8 in body", .none⟩)
      | .msg m =>
        let (conns2, failed) := sendAllConns conns m
        ({ st with onlineUsers := pruneAfterSend st.onlineUsers uid conns2 failed },
          ⟨200, .none, .none⟩)
    | none => (st, ⟨404, .str "subscriber id not found", .none⟩)

/-- The dispatch half of `publish_message` in `Mode::PingPong`, up to the
5-second wait: push the fresh slot id onto the identifier's FIFO, try the
connections in order until one send succeeds, prune failures. `some resp`
is an early return (400/404); `none` means the frame was enqueued and the
handler proceeds to await the reply. -/
def publishPingPongDispatch (st : SingleState) (uid ct : String) (body : List Nat)
    (slotId : String) : SingleState × Option Resp :=
  if uid = "" then
    (st, some ⟨400, .str "Missing 'id' query parameter for /pub", .none⟩)
  else
    match lookupKey st.onlineUsers uid with
    | some conns =>
      match encodeMessage ct body with
      | .invalidUtf8 => (st, some ⟨400, .str "Invalid UTF-8 in body", .none⟩)
      | .msg m =>
        let cbs := updateKey st.callbackChannels uid (fun q => q ++ [slotId]) []
        let (conns2, failed, sent) := trySendFirst conns m
        let st2 : SingleState :=
          { onlineUsers := pruneAfterSend st.onlineUsers uid conns2 failed,
            callbackChannels := cbs }
        if sent then (st2, none)
        else (st2, some ⟨404, .str "subscriber disconnected during send", .none⟩)
    | none => (st, some ⟨404, .str "subscriber id not found", .none⟩)

/-- Outcome of `timeout(Duration::from_secs(5), rx)` in the ping-pong
branch: a reply arrived, the oneshot sender was dropped without a reply,
or five seconds elapsed. -/
inductive ReplyOutcome where
  | reply (b : List Nat)
  | closed
  | timedOut
  deriving DecidableEq, Repr

/-- The await half of `publish_message` in `Mode::PingPong`: a reply is
200 with content type `application/octet-stream` and the raw bytes; a
closed channel is 204; a timeout removes every slot with the pushed id
from the identifier's FIFO and answers 408. -/
def pingPongAwait (st : SingleState) (uid slotId : String) (o : ReplyOutcome) :
    SingleState × Resp :=
  match o with
  | .reply b => (st, ⟨200, .bytes b, some "application/octet-stream"⟩)
  | .closed => (st, ⟨204, .none, .none⟩)
  | .timedOut =>
    let cbs :=
      match lookupKey st.callbackChannels uid with
      | none => st.callbackChannels
      | some slots =>
        setKey st.callbackChannels uid (slots.filter (fun s => s ≠ slotId))
    ({ st with callbackChannels := cbs },
      ⟨408, .str "Request timeout after 5 seconds", .none⟩)

/-- Function `user_disconnected`: remove the connection from the identifier's map;
when the map becomes empty, remove the identifier from `ONLINE_USERS` and
its FIFO from `CALLBACK_CHANNELS`. -/
def user_disconnected (st : SingleState) (uid cid : String) : SingleState :=
  match lookupKey st.onlineUsers uid with
  | none => st
  | some conns =>
    let conns2 := conns.filter (fun p => p.1 ≠ cid)
    if conns2.isEmpty then
      { onlineUsers := removeKey st.onlineUsers uid,
        callbackChannels := removeKey st.callbackChannels uid }
    else { st with onlineUsers := setKey st.onlineUsers uid conns2 }

/-- The reader loop's handling of one inbound data (non-pong) frame in
`handle_socket`: if the identifier has a reply-slot FIFO with a waiting
slot, pop its head and deliver the frame's bytes to that slot's channel
(the delivery is returned as `some (slotId, bytes)`); otherwise the frame
is dropped and the state unchanged. -/
def readerDataFrame (st : SingleState) (uid : String) (data : List Nat) :
    SingleState × Option (String × List Nat) :=
  match lookupKey st.callbackChannels uid with
  | none => (st, none)
  | some slots =>
    match slots with
    | [] => (st, none)
    | sid :: rest =>
      ({ st with callbackChannels := setKey st.callbackChannels uid rest },
        some (sid, data))

/-! ### Broadcast mode (src/broadcast.rs) -/

/-- A broadcast `Connection`: numeric `connection_id` plus the outbound
queue (modelled like `ConnQ`: alive flag and queued frames). -/
structure BConn where
  connection_id : Nat
  live : Bool
  queue : List Message
  deriving DecidableEq, Repr

/-- Registry `BROADCAST_USERS`: identifier to list of connections. -/
def BroadcastUsers : Type := List (String × List BConn)

/-- The fan-out loop of `broadcast_publish`: send the frame to every
connection, collecting the `connection_id`s whose send failed
(`failed_connection_ids`) in iteration order. -/
def broadcastSendAll : List BConn → Message → List BConn × List Nat
  | [], _ => ([], [])
  | c :: rest, m =>
    let (rest2, failed) := broadcastSendAll rest m
    if c.live then ({ c with queue := c.queue ++ [m] } :: rest2, failed)
    else (c :: rest2, c.connection_id :: failed)

/-- The cleanup pass at the end of `broadcast_publish`: when any sends
failed, under write access retain only the connections whose
`connection_id` is not among the failed ids, and drop the identifier
when none remain. -/
def broadcastPrune (m : List (String × List BConn)) (uid : String)
    (conns2 : List BConn) (failed : List Nat) : List (String × List BConn) :=
  if failed.isEmpty then setKey m uid conns2
  else if (conns2.filter (fun c => !(failed.contains c.connection_id))).isEmpty then
    removeKey m uid
  else setKey m uid (conns2.filter (fun c => !(failed.contains c.connection_id)))

/-- Handler `broadcast_publish`: empty id is 400; the body is encoded before the
lookup (400 on invalid UTF-8 under a textual content type); an absent
identifier delivers nothing; otherwise send to every connection and
prune the failures. The response is 200 in every non-error case. -/
def broadcast_publish (m : List (String × List BConn)) (uid ct : String)
    (body : List Nat) : List (String × List BConn) × Resp :=
  if uid = "" then
    (m, ⟨400, .str "Missing 'id' query parameter for /broad/pub", .none⟩)
  else
    match encodeMessage ct body with
    | .invalidUtf8 => (m, ⟨400, .str "Invalid UTF-8 in body", .none⟩)
    | .msg msg =>
      match lookupKey m uid with
      | none => (m, ⟨200, .none, .none⟩)
      | some conns =>
        let (conns2, failed) := broadcastSendAll conns msg
        (broadcastPrune m uid conns2 failed, ⟨200, .none, .none⟩)

/-- Function `broadcast_user_disconnected`: drop the connection with the given id;
when the identifier's list empties, drop the identifier. -/
def broadcast_user_disconnected (m : List (String × List BConn)) (uid : String)
    (connectionId : Nat) : List (String × List BConn) :=
  match lookupKey m uid with
  | none => m
  | some conns =>
    let conns2 := conns.filter (fun c => c.connection_id ≠ connectionId)
    if conns2.isEmpty then removeKey m uid
    else setKey m uid conns2

/-! ### Observation helpers and concrete states -/

/-- How many of the identifier's connections have the given frame in
their outbound queue — the number of subscribers a publish reached. -/
def queuesContaining (st : SingleState) (uid : String) (m : Message) : Nat :=
  match lookupKey st.onlineUsers uid with
  | none => 0
  | some conns => (conns.filter (fun p => p.2.queue.contains m)).length

/-- Two live subscribers registered under identifier `a`. -/
def twoLiveState : SingleState :=
  { onlineUsers := [("a", [("c1", ⟨true, []⟩), ("c2", ⟨true, []⟩)])],
    callbackChannels := [] }

/-- Identifier `a` has a single connection whose queue is closed, and a
pending reply slot `s0` in its FIFO. -/
def deadConnState : SingleState :=
  { onlineUsers := [("a", [("c1", ⟨false, []⟩)])],
    callbackChannels := [("a", ["s0"])] }

/-- No subscribers; identifier `a` has two pending reply slots. -/
def twoSlotState : SingleState :=
  { onlineUsers := [],
    callbackChannels := [("a", ["s1", "s2"])] }

/-- The empty single-mode state. -/
def emptySingleState : SingleState :=
  { onlineUsers := [], callbackChannels := [] }

/-! ### General lemmas about the registry helpers -/

theorem contains_iff_mem {α : Type} [BEq α] [LawfulBEq α] {l : List α} {a : α} :
    l.contains a = true ↔ a ∈ l := by
  simp [List.contains, List.elem_iff]

theorem contains_eq_false_of_not_mem {α : Type} [BEq α] [LawfulBEq α]
    {l : List α} {a : α} (h : a ∉ l) : l.contains a = false := by
  cases hc : l.contains a with
  | false => rfl
  | true => exact absurd (contains_iff_mem.mp hc) h

theorem lookupKey_setKey_self {α : Type} (l : List (String × α)) (k : String) (v : α) :
    lookupKey (setKey l k v) k = some v := by
  induction l with
  | nil => simp [setKey, lookupKey]
  | cons p rest ih =>
    obtain ⟨k2, v2⟩ := p
    by_cases h : k2 = k
    · simp [setKey, lookupKey, h]
    · simp [setKey, lookupKey, h, ih]

theorem lookupKey_removeKey_self {α : Type} (l : List (String × α)) (k : String) :
    lookupKey (removeKey l k) k = none := by
  induction l with
  | nil => simp [removeKey, lookupKey]
  | cons p rest ih =>
    obtain ⟨k2, v2⟩ := p
    by_cases h : k2 = k
    · simpa [removeKey, List.filter_cons, h] using ih
    · simpa [removeKey, List.filter_cons, h, lookupKey] using ih

theorem lookupKey_updateKey_self {α : Type} (l : List (String × α)) (k : String)
    (f : α → α) (d : α) :
    lookupKey (updateKey l k f d) k = some (f ((lookupKey l k).getD d)) := by
  induction l with
  | nil => simp [updateKey, lookupKey]
  | cons p rest ih =>
    obtain ⟨k2, v2⟩ := p
    by_cases h : k2 = k
    · simp [updateKey, lookupKey, h]
    · simp [updateKey, lookupKey, h, ih]

theorem assoc_nodup_val_eq {α : Type} :
    ∀ {l : List (String × α)}, (l.map Prod.fst).Nodup →
      ∀ {k : String} {a b : α}, (k, a) ∈ l → (k, b) ∈ l → a = b := by
  intro l
  induction l with
  | nil => intro _ k a b ha; cases ha
  | cons p rest ih =>
    intro hnd k a b ha hb
    obtain ⟨k2, v2⟩ := p
    rw [List.map_cons, List.nodup_cons] at hnd
    rcases List.mem_cons.mp ha with ha1 | ha2 <;>
      rcases List.mem_cons.mp hb with hb1 | hb2
    · rw [Prod.mk.injEq] at ha1 hb1
      rw [ha1.2, hb1.2]
    · rw [Prod.mk.injEq] at ha1
      have hm : k ∈ rest.map Prod.fst := List.mem_map_of_mem Prod.fst hb2
      exact absurd (ha1.1 ▸ hm) hnd.1
    · rw [Prod.mk.injEq] at hb1
      have hm : k ∈ rest.map Prod.fst := List.mem_map_of_mem Prod.fst ha2
      exact absurd (hb1.1 ▸ hm) hnd.1
    · exact ih hnd.2 ha2 hb2

/-! ### Lemmas about the send loops -/

theorem sendAllConns_failed_spec (conns : List (String × ConnQ)) (m : Message) :
    (sendAllConns conns m).2 = (conns.filter (fun p => !p.2.live)).map Prod.fst := by
  induction conns with
  | nil => simp [sendAllConns]
  | cons p rest ih =>
    obtain ⟨cid, c⟩ := p
    rcases hsa : sendAllConns rest m with ⟨rest2, failed⟩
    rw [hsa] at ih
    by_cases hc : c.live
    · simpa [sendAllConns, hsa, hc, List.filter_cons] using ih
    · simpa [sendAllConns, hsa, hc, List.filter_cons] using ih

theorem sendAllConns_keys (conns : List (String × ConnQ)) (m : Message) :
    (sendAllConns conns m).1.map Prod.fst = conns.map Prod.fst := by
  induction conns with
  | nil => simp [sendAllConns]
  | cons p rest ih =>
    obtain ⟨cid, c⟩ := p
    rcases hsa : sendAllConns rest m with ⟨rest2, failed⟩
    rw [hsa] at ih
    by_cases hc : c.live
    · simpa [sendAllConns, hsa, hc] using ih
    · simpa [sendAllConns, hsa, hc] using ih

theorem sendAllConns_mem_live {conns : List (String × ConnQ)} {m : Message}
    {cid : String} {c : ConnQ} (hmem : (cid, c) ∈ conns) (hl : c.live = true) :
    (cid, { c with queue := c.queue ++ [m] }) ∈ (sendAllConns conns m).1 := by
  induction conns with
  | nil => cases hmem
  | cons p rest ih =>
    obtain ⟨cid2, c2⟩ := p
    rcases hsa : sendAllConns rest m with ⟨rest2, failed⟩
    rcases List.mem_cons.mp hmem with heq | htail
    · rw [Prod.mk.injEq] at heq
      obtain ⟨h1, h2⟩ := heq
      subst h1
      subst h2
      simp [sendAllConns, hsa, hl]
    · have hmem2 := ih htail
      rw [hsa] at hmem2
      simp only at hmem2
      by_cases hc2 : c2.live
      · simp only [sendAllConns, hsa, hc2, if_true]
        exact List.mem_cons_of_mem _ hmem2
      · simp only [sendAllConns, hsa, hc2, if_false]
        exact List.mem_cons_of_mem _ hmem2

theorem broadcastSendAll_failed_spec (conns : List BConn) (m : Message) :
    (broadcastSendAll conns m).2 =
      (conns.filter (fun c => !c.live)).map BConn.connection_id := by
  induction conns with
  | nil => simp [broadcastSendAll]
  | cons c rest ih =>
    rcases hsa : broadcastSendAll rest m with ⟨rest2, failed⟩
    rw [hsa] at ih
    by_cases hc : c.live
    · simpa [broadcastSendAll, hsa, hc, List.filter_cons] using ih
    · simpa [broadcastSendAll, hsa, hc, List.filter_cons] using ih

theorem broadcastSendAll_keys (conns : List BConn) (m : Message) :
    (broadcastSendAll conns m).1.map BConn.connection_id =
      conns.map BConn.connection_id := by
  induction conns with
  | nil => simp [broadcastSendAll]
  | cons c rest ih =>
    rcases hsa : broadcastSendAll rest m with ⟨rest2, failed⟩
    rw [hsa] at ih
    by_cases hc : c.live
    · simpa [broadcastSendAll, hsa, hc] using ih
    · simpa [broadcastSendAll, hsa, hc] using ih

theorem broadcastSendAll_mem_live {conns : List BConn} {m : Message}
    {c : BConn} (hmem : c ∈ conns) (hl : c.live = true) :
    { c with queue := c.queue ++ [m] } ∈ (broadcastSendAll conns m).1 := by
  induction conns with
  | nil => cases hmem
  | cons c2 rest ih =>
    rcases hsa : broadcastSendAll rest m with ⟨rest2, failed⟩
    rcases List.mem_cons.mp hmem with heq | htail
    · subst heq
      simp [broadcastSendAll, hsa, hl]
    · have hmem2 := ih htail
      rw [hsa] at hmem2
      simp only at hmem2
      by_cases hc2 : c2.live
      · simp only [broadcastSendAll, hsa, hc2, if_true]
        exact List.mem_cons_of_mem _ hmem2
      · simp only [broadcastSendAll, hsa, hc2, if_false]
        exact List.mem_cons_of_mem _ hmem2

/-! ### Claim theorems -/

/-- C3: the claim states that when a ping-pong publish finds no live
subscriber to enqueue to, the reply slot just pushed is popped back off
before the 404 return, leaving the FIFO unchanged. The code omits the
pop: at a state whose only connection for `a` is dead and whose FIFO for
`a` holds `s0`, dispatching slot `slot1` answers 404 yet leaves the FIFO
as `[s0, slot1]` — the pushed slot is still there. -/
theorem pingPong_enqueue_failure_leaks_slot :
    (publishPingPongDispatch deadConnState "a" "application/octet-stream" [] "slot1").2 =
      some ⟨404, .str "subscriber disconnected during send", .none⟩ ∧
    lookupKey
      (publishPingPongDispatch deadConnState "a" "application/octet-stream" []
        "slot1").1.callbackChannels "a" = some ["s0", "slot1"] := by
  constructor
  · decide
  · decide

/-- C4: the claim states that any connection removal leaving an
identifier with zero connections deletes both the registry entry and the
reply-slot FIFO. The reader-exit path (`user_disconnected`) does exactly
that, but the lazy prune inside a shot publish deletes only the
`ONLINE_USERS` entry: after publishing to `a` whose single connection is
dead, `a` is gone from the registry yet its FIFO `[s0]` survives. -/
theorem lazy_prune_keeps_reply_fifo :
    lookupKey (publishShot deadConnState "a" "application/octet-stream" []).1.onlineUsers
      "a" = none ∧
    lookupKey (publishShot deadConnState "a" "application/octet-stream"
      []).1.callbackChannels "a" = some ["s0"] ∧
    user_disconnected deadConnState "a" "c1" = ⟨[], []⟩ := by
  refine ⟨by decide, by decide, by decide⟩

/-- C5: once a ping-pong publish gets past dispatch, the three await
outcomes map exactly to: a reply gives 200 with content type
`application/octet-stream` and the raw bytes; a closed channel gives
204 No Content; a timeout gives 408 with body "Request timeout after 5
seconds" after removing from the identifier's FIFO every slot whose id
equals the pushed slot id. -/
theorem pingPong_await_outcomes (st : SingleState) (uid slotId : String) :
    (∀ b, pingPongAwait st uid slotId (.reply b) =
      (st, ⟨200, .bytes b, some "application/octet-stream"⟩)) ∧
    pingPongAwait st uid slotId .closed = (st, ⟨204, .none, .none⟩) ∧
    (pingPongAwait st uid slotId .timedOut).2 =
      ⟨408, .str "Request timeout after 5 seconds", .none⟩ ∧
    (∀ slots,
      lookupKey (pingPongAwait st uid slotId .timedOut).1.callbackChannels uid =
        some slots → slotId ∉ slots) := by
  refine ⟨fun b => rfl, rfl, rfl, ?_⟩
  intro slots hlk
  cases hcb : lookupKey st.callbackChannels uid with
  | none =>
    have hcbs : (pingPongAwait st uid slotId .timedOut).1.callbackChannels =
        st.callbackChannels := by
      simp [pingPongAwait, hcb]
    rw [hcbs, hcb] at hlk
    cases hlk
  | some slots0 =>
    have hcbs : (pingPongAwait st uid slotId .timedOut).1.callbackChannels =
        setKey st.callbackChannels uid (slots0.filter (fun s => s ≠ slotId)) := by
      simp [pingPongAwait, hcb]
    rw [hcbs, lookupKey_setKey_self] at hlk
    injection hlk with hlk2
    intro hmem
    rw [← hlk2] at hmem
    have := (List.mem_filter.mp hmem).2
    simp at this

/-- Witness for C5 at a concrete state: a timed-out slot `s1` is removed
from `a`'s FIFO, leaving `[s2]`, and `s1` is no longer among the slots. -/
theorem pingPong_await_outcomes_witness :
    lookupKey (pingPongAwait twoSlotState "a" "s1" .timedOut).1.callbackChannels "a" =
      some ["s2"] ∧ "s1" ∉ (["s2"] : List String) := by
  refine ⟨by decide, ?_⟩
  exact (pingPong_await_outcomes twoSlotState "a" "s1").2.2.2 ["s2"] (by decide)

/-- C6: a broadcast publish with a non-empty id and a body whose
encoding succeeds answers 200 with no body, whatever the registry holds
and however many recipient sends fail; an absent identifier is not an
error. -/
theorem broadcast_publish_always_ok (m : List (String × List BConn)) (uid ct : String)
    (body : List Nat) (msg : Message)
    (huid : uid ≠ "") (henc : encodeMessage ct body = .msg msg) :
    (broadcast_publish m uid ct body).2 = ⟨200, .none, .none⟩ := by
  simp only [broadcast_publish, huid, if_false, henc]
  cases lookupKey m uid with
  | none => rfl
  | some conns =>
    rcases hsa : broadcastSendAll conns msg with ⟨conns2, failed⟩
    simp [hsa]

/-- Witness for C6: broadcasting text to an identifier with no
subscribers at all still answers 200. -/
theorem broadcast_publish_always_ok_witness :
    (broadcast_publish [] "a" "text/plain" [104]).2 = ⟨200, .none, .none⟩ :=
  broadcast_publish_always_ok [] "a" "text/plain" [104] (.text [104])
    (by decide) (by decide)

/-- C10: a single-mode publish (shot or ping-pong) to an identifier
absent from the registry answers 404 for every body and content type:
the lookup precedes body encoding, so even an invalid-UTF-8 body under a
textual content type yields 404, not 400. -/
theorem publish_unknown_id_404 (st : SingleState) (uid ct : String) (body : List Nat)
    (slotId : String) (huid : uid ≠ "")
    (hlk : lookupKey st.onlineUsers uid = none) :
    publishShot st uid ct body = (st, ⟨404, .str "subscriber id not found", .none⟩) ∧
    publishPingPongDispatch st uid ct body slotId =
      (st, some ⟨404, .str "subscriber id not found", .none⟩) := by
  constructor
  · simp [publishShot, huid, hlk]
  · simp [publishPingPongDispatch, huid, hlk]

/-- Witness for C10: an invalid-UTF-8 body under `text/plain` still gets
404 (not 400) when the identifier `z` is unknown. -/
theorem publish_unknown_id_404_witness :
    validUtf8 [255] = false ∧
    publishShot emptySingleState "z" "text/plain" [255] =
      (emptySingleState, ⟨404, .str "subscriber id not found", .none⟩) ∧
    publishPingPongDispatch emptySingleState "z" "text/plain" [255] "s" =
      (emptySingleState, some ⟨404, .str "subscriber id not found", .none⟩) := by
  have h := publish_unknown_id_404 emptySingleState "z" "text/plain" [255] "s"
    (by decide) (by decide)
  exact ⟨by decide, h.1, h.2⟩

/-- C1: the claim states that a shot publish to an identifier with live
subscribers enqueues the message to exactly one subscriber's queue. At a
state with two live subscribers under `a`, the shot send loop enqueues
the frame to both queues: the number of queues holding the frame is 2,
not 1. -/
theorem shot_unicast_counterexample :
    queuesContaining (publishShot twoLiveState "a" "application/octet-stream" [7]).1 "a"
      (.binary [7]) = 2 ∧
    ¬ queuesContaining (publishShot twoLiveState "a" "application/octet-stream" [7]).1 "a"
      (.binary [7]) = 1 := by
  constructor
  · decide
  · decide

/-- C1 (amended): a shot publish to a present identifier fans out: the
frame is enqueued to the queue of every connection whose queue is live
(all of them, not one), the response being 200. -/
theorem shot_publish_fans_out (st : SingleState) (uid ct : String) (body : List Nat)
    (conns : List (String × ConnQ)) (m : Message)
    (huid : uid ≠ "")
    (hlk : lookupKey st.onlineUsers uid = some conns)
    (henc : encodeMessage ct body = .msg m)
    (hnd : (conns.map Prod.fst).Nodup) :
    (publishShot st uid ct body).2 = ⟨200, .none, .none⟩ ∧
    ∀ cid c, (cid, c) ∈ conns → c.live = true →
      ∃ conns2, lookupKey (publishShot st uid ct body).1.onlineUsers uid = some conns2 ∧
        (cid, { c with queue := c.queue ++ [m] }) ∈ conns2 := by
  rcases hsa : sendAllConns conns m with ⟨conns2, failed⟩
  have hstate : (publishShot st uid ct body).1.onlineUsers =
      pruneAfterSend st.onlineUsers uid conns2 failed := by
    simp [publishShot, huid, hlk, henc, hsa]
  refine ⟨by simp [publishShot, huid, hlk, henc, hsa], ?_⟩
  intro cid c hmem hlive
  have hmem2 : (cid, { c with queue := c.queue ++ [m] }) ∈ conns2 := by
    have h := sendAllConns_mem_live (m := m) hmem hlive
    rw [hsa] at h
    exact h
  have hnf : cid ∉ failed := by
    intro hin
    have hfs := sendAllConns_failed_spec conns m
    rw [hsa] at hfs
    simp only at hfs
    rw [hfs] at hin
    obtain ⟨p, hp, hfst⟩ := List.mem_map.mp hin
    have hp2 := List.mem_filter.mp hp
    have hdead : p.2.live = false := by simpa using hp2.2
    have hpconns : (cid, p.2) ∈ conns := by
      have hpp : (p.1, p.2) ∈ conns := by simpa using hp2.1
      rw [hfst] at hpp
      exact hpp
    have hcp := assoc_nodup_val_eq hnd hmem hpconns
    rw [hcp, hdead] at hlive
    cases hlive
  rw [hstate]
  unfold pruneAfterSend
  by_cases hf : failed.isEmpty = true
  · rw [if_pos hf, lookupKey_setKey_self]
    exact ⟨conns2, rfl, hmem2⟩
  · rw [if_neg hf]
    have hcf : failed.contains cid = false := contains_eq_false_of_not_mem hnf
    have hmem3 : (cid, { c with queue := c.queue ++ [m] }) ∈
        conns2.filter (fun p => !(failed.contains p.1)) := by
      refine List.mem_filter.mpr ⟨hmem2, ?_⟩
      simpa using hnf
    have hne : (conns2.filter (fun p => !(failed.contains p.1))).isEmpty = false := by
      rw [List.isEmpty_eq_false]
      intro hnil
      rw [hnil] at hmem3
      cases hmem3
    simp only [hne, Bool.false_eq_true, if_false, lookupKey_setKey_self]
    exact ⟨_, rfl, hmem3⟩

/-- Witness for C1 (amended) at two live subscribers: the publish
answers 200 and the second subscriber's queue also received the frame. -/
theorem shot_publish_fans_out_witness :
    (publishShot twoLiveState "a" "text/plain" [104]).2 = ⟨200, .none, .none⟩ ∧
    ∃ conns2,
      lookupKey (publishShot twoLiveState "a" "text/plain" [104]).1.onlineUsers "a" =
        some conns2 ∧ ("c2", ConnQ.mk true [.text [104]]) ∈ conns2 := by
  have h := shot_publish_fans_out twoLiveState "a" "text/plain" [104]
    [("c1", ⟨true, []⟩), ("c2", ⟨true, []⟩)] (.text [104])
    (by decide) (by decide) (by decide) (by decide)
  exact ⟨h.1, h.2 "c2" ⟨true, []⟩ (by decide) rfl⟩

/-- C2: the claim states the shot response is 200 only when the message
reached at least one live queue, and 404 when the identifier is present
but every enqueue fails. At a state whose only connection for `a` is
dead, every send fails (no queue receives the frame), yet the response
status is 200, not 404. -/
theorem shot_dead_conn_counterexample :
    (publishShot deadConnState "a" "application/octet-stream" [1]).2.status = 200 ∧
    queuesContaining (publishShot deadConnState "a" "application/octet-stream" [1]).1 "a"
      (.binary [1]) = 0 := by
  constructor
  · decide
  · decide

/-- C2 (amended): the shot response depends only on the lookup (and body
encoding): a present identifier answers 200 whether or not any enqueue
succeeded, and an absent identifier answers 404. -/
theorem shot_status_by_lookup (st : SingleState) (uid ct : String) (body : List Nat)
    (huid : uid ≠ "") :
    (∀ conns msg, lookupKey st.onlineUsers uid = some conns →
      encodeMessage ct body = .msg msg →
      (publishShot st uid ct body).2 = ⟨200, .none, .none⟩) ∧
    (lookupKey st.onlineUsers uid = none →
      (publishShot st uid ct body).2 = ⟨404, .str "subscriber id not found", .none⟩) := by
  constructor
  · intro conns msg hlk henc
    rcases hsa : sendAllConns conns msg with ⟨conns2, failed⟩
    simp [publishShot, huid, hlk, henc, hsa]
  · intro hlk
    simp [publishShot, huid, hlk]

/-- Witness for C2 (amended): 200 at a present identifier whose only
connection is dead, 404 at an absent identifier. -/
theorem shot_status_by_lookup_witness :
    (publishShot deadConnState "a" "application/octet-stream" [1]).2 =
      ⟨200, .none, .none⟩ ∧
    (publishShot emptySingleState "a" "application/octet-stream" [1]).2 =
      ⟨404, .str "subscriber id not found", .none⟩ := by
  refine ⟨?_, ?_⟩
  · exact (shot_status_by_lookup deadConnState "a" "application/octet-stream" [1]
      (by decide)).1 [("c1", ⟨false, []⟩)] (.binary [1]) (by decide) (by decide)
  · exact (shot_status_by_lookup emptySingleState "a" "application/octet-stream" [1]
      (by decide)).2 (by decide)

/-- C8: content-type routing is total and deterministic: a UTF-8 decode
is attempted exactly when the content type begins with
`application/json` or `text/`; a valid body becomes a text frame, an
invalid one is rejected with 400 "Invalid UTF-8 in body" (shown on both
publish handlers), and every other content type yields a binary frame
with the raw bytes whatever the body. -/
theorem contentType_routing (ct : String) (body : List Nat) :
    (contentTypeIsTextual ct = true → validUtf8 body = true →
      encodeMessage ct body = .msg (.text body)) ∧
    (contentTypeIsTextual ct = true → validUtf8 body = false →
      encodeMessage ct body = .invalidUtf8 ∧
      (∀ st : SingleState, ∀ uid conns, uid ≠ "" →
        lookupKey st.onlineUsers uid = some conns →
        (publishShot st uid ct body).2 = ⟨400, .str "Invalid UTF-8 in body", .none⟩) ∧
      (∀ m : List (String × List BConn), ∀ uid, uid ≠ "" →
        (broadcast_publish m uid ct body).2 =
          ⟨400, .str "Invalid UTF-8 in body", .none⟩)) ∧
    (contentTypeIsTextual ct = false → encodeMessage ct body = .msg (.binary body)) := by
  refine ⟨?_, ?_, ?_⟩
  · intro hct hv
    simp [encodeMessage, hct, hv]
  · intro hct hv
    have henc : encodeMessage ct body = .invalidUtf8 := by
      simp [encodeMessage, hct, hv]
    refine ⟨henc, ?_, ?_⟩
    · intro st uid conns huid hlk
      simp [publishShot, huid, hlk, henc]
    · intro m uid huid
      simp [broadcast_publish, huid, henc]
  · intro hct
    simp [encodeMessage, hct]

/-- Witness for C8: a valid text body, an invalid one rejected by the
broadcast handler, and a binary content type passing any bytes through. -/
theorem contentType_routing_witness :
    encodeMessage "text/plain" [104] = .msg (.text [104]) ∧
    encodeMessage "application/octet-stream" [255] = .msg (.binary [255]) ∧
    (broadcast_publish [] "b" "text/plain" [255]).2 =
      ⟨400, .str "Invalid UTF-8 in body", .none⟩ := by
  refine ⟨(contentType_routing "text/plain" [104]).1 (by decide) (by decide),
    (contentType_routing "application/octet-stream" [255]).2.2 (by decide),
    ((contentType_routing "text/plain" [255]).2.1 (by decide) (by decide)).2.2 [] "b"
      (by decide)⟩

/-- C9: the reader services reply slots strictly in FIFO push order:
with slots `s1` then `s2` waiting for an identifier, the first inbound
data frame pops `s1` and delivers its bytes there, the second pops `s2`,
and a further frame with no waiting slot is silently dropped (nothing
delivered, state unchanged). -/
theorem reader_services_slots_fifo (st : SingleState) (uid s1 s2 : String)
    (d1 d2 d3 : List Nat)
    (h : lookupKey st.callbackChannels uid = some [s1, s2]) :
    (readerDataFrame st uid d1).2 = some (s1, d1) ∧
    (readerDataFrame (readerDataFrame st uid d1).1 uid d2).2 = some (s2, d2) ∧
    (readerDataFrame (readerDataFrame (readerDataFrame st uid d1).1 uid d2).1 uid
      d3).2 = none ∧
    (readerDataFrame (readerDataFrame (readerDataFrame st uid d1).1 uid d2).1 uid
      d3).1 = (readerDataFrame (readerDataFrame st uid d1).1 uid d2).1 := by
  have h1 : readerDataFrame st uid d1 =
      ({ st with callbackChannels := setKey st.callbackChannels uid [s2] },
        some (s1, d1)) := by
    simp [readerDataFrame, h]
  have hl2 : lookupKey (setKey st.callbackChannels uid [s2]) uid = some [s2] :=
    lookupKey_setKey_self _ _ _
  have h2 : readerDataFrame (readerDataFrame st uid d1).1 uid d2 =
      ({ st with
          callbackChannels := setKey (setKey st.callbackChannels uid [s2]) uid [] },
        some (s2, d2)) := by
    rw [h1]
    simp [readerDataFrame, hl2]
  have hl3 : lookupKey (setKey (setKey st.callbackChannels uid [s2]) uid []) uid =
      some [] := lookupKey_setKey_self _ _ _
  have h3 : readerDataFrame (readerDataFrame (readerDataFrame st uid d1).1 uid d2).1
      uid d3 = ((readerDataFrame (readerDataFrame st uid d1).1 uid d2).1, none) := by
    rw [h2]
    simp [readerDataFrame, hl3, h2]
  exact ⟨by rw [h1], by rw [h2], by rw [h3], by rw [h3]⟩

/-- Witness for C9 at a concrete state holding slots `s1, s2` for `a`. -/
theorem reader_services_slots_fifo_witness :
    (readerDataFrame twoSlotState "a" [1]).2 = some ("s1", [1]) ∧
    (readerDataFrame (readerDataFrame twoSlotState "a" [1]).1 "a" [2]).2 =
      some ("s2", [2]) := by
  have h := reader_services_slots_fifo twoSlotState "a" "s1" "s2" [1] [2] [3] (by decide)
  exact ⟨h.1, h.2.1⟩

/-- C7: a broadcast publish attempts the enqueue on every connection of
the identifier; the frame lands in every live connection's queue and
those connections survive the prune, the connections whose enqueue
failed (and only those ids) are removed afterwards, the identifier is
deleted once its list becomes empty, and pruning ids that are no longer
present is a no-op. -/
theorem broadcast_publish_prunes_failed (m : List (String × List BConn))
    (uid ct : String) (body : List Nat) (conns : List BConn) (msg : Message)
    (huid : uid ≠ "")
    (hlk : lookupKey m uid = some conns)
    (henc : encodeMessage ct body = .msg msg)
    (hnd : (conns.map BConn.connection_id).Nodup) :
    (∀ c ∈ conns, c.live = true →
      ∃ conns2, lookupKey (broadcast_publish m uid ct body).1 uid = some conns2 ∧
        { c with queue := c.queue ++ [msg] } ∈ conns2) ∧
    (∀ c ∈ conns, c.live = false →
      ∀ conns2, lookupKey (broadcast_publish m uid ct body).1 uid = some conns2 →
        c.connection_id ∉ conns2.map BConn.connection_id) ∧
    ((conns ≠ [] ∧ ∀ c ∈ conns, c.live = false) →
      lookupKey (broadcast_publish m uid ct body).1 uid = none) ∧
    (∀ (cs : List BConn) (ids : List Nat),
      (∀ i ∈ ids, i ∉ cs.map BConn.connection_id) →
      cs.filter (fun c => !(ids.contains c.connection_id)) = cs) := by
  rcases hsa : broadcastSendAll conns msg with ⟨conns2, failed⟩
  have hfs := broadcastSendAll_failed_spec conns msg
  rw [hsa] at hfs
  simp only at hfs
  have hks := broadcastSendAll_keys conns msg
  rw [hsa] at hks
  simp only at hks
  have hdead_mem : ∀ c ∈ conns, c.live = false → c.connection_id ∈ failed := by
    intro c hc hdead
    rw [hfs]
    exact List.mem_map_of_mem _ (List.mem_filter.mpr ⟨hc, by simp [hdead]⟩)
  have hlive_not : ∀ c ∈ conns, c.live = true → c.connection_id ∉ failed := by
    intro c hc hlive hin
    rw [hfs] at hin
    obtain ⟨x, hx, hxid⟩ := List.mem_map.mp hin
    have hx2 := List.mem_filter.mp hx
    have hxdead : x.live = false := by simpa using hx2.2
    have hxc : x = c := List.inj_on_of_nodup_map hnd hx2.1 hc hxid
    rw [hxc, hlive] at hxdead
    cases hxdead
  have hall : (conns ≠ [] ∧ ∀ c ∈ conns, c.live = false) →
      failed = conns.map BConn.connection_id := by
    intro hh
    rw [hfs]
    congr 1
    refine List.filter_eq_self.mpr ?_
    intro a ha
    simp [hh.2 a ha]
  have hnoop : ∀ (cs : List BConn) (ids : List Nat),
      (∀ i ∈ ids, i ∉ cs.map BConn.connection_id) →
      cs.filter (fun c => !(ids.contains c.connection_id)) = cs := by
    intro cs ids hno
    refine List.filter_eq_self.mpr ?_
    intro c hc
    have hnotin : c.connection_id ∉ ids := by
      intro hin
      exact hno c.connection_id hin (List.mem_map_of_mem _ hc)
    simpa using hnotin
  have hres : (broadcast_publish m uid ct body).1 =
      broadcastPrune m uid conns2 failed := by
    simp [broadcast_publish, huid, henc, hlk, hsa]
  by_cases hf : failed.isEmpty = true
  · have hfail_nil : failed = [] := by simpa using hf
    have hP : broadcastPrune m uid conns2 failed = setKey m uid conns2 := by
      unfold broadcastPrune
      rw [if_pos hf]
    refine ⟨?_, ?_, ?_, hnoop⟩
    · intro c hc hlive
      rw [hres, hP, lookupKey_setKey_self]
      refine ⟨conns2, rfl, ?_⟩
      have h := broadcastSendAll_mem_live (m := msg) hc hlive
      rw [hsa] at h
      exact h
    · intro c hc hdead conns3 hlk3
      have := hdead_mem c hc hdead
      rw [hfail_nil] at this
      cases this
    · intro hh
      have := hall hh
      rw [hfail_nil] at this
      have hc : conns = [] := by
        cases conns with
        | nil => rfl
        | cons a l => cases this
      exact absurd hc hh.1
  · by_cases he :
      (conns2.filter (fun c => !(failed.contains c.connection_id))).isEmpty = true
    · have hnil : conns2.filter (fun c => !(failed.contains c.connection_id)) = [] := by
        simpa using he
      have hP : broadcastPrune m uid conns2 failed = removeKey m uid := by
        unfold broadcastPrune
        rw [if_neg hf, if_pos he]
      refine ⟨?_, ?_, ?_, hnoop⟩
      · intro c hc hlive
        have hmem2 : { c with queue := c.queue ++ [msg] } ∈ conns2 := by
          have h := broadcastSendAll_mem_live (m := msg) hc hlive
          rw [hsa] at h
          exact h
        have hkeep : { c with queue := c.queue ++ [msg] } ∈
            conns2.filter (fun c => !(failed.contains c.connection_id)) := by
          refine List.mem_filter.mpr ⟨hmem2, ?_⟩
          have hni : c.connection_id ∉ failed := hlive_not c hc hlive
          simpa using hni
        rw [hnil] at hkeep
        cases hkeep
      · intro c hc hdead conns3 hlk3
        rw [hres, hP, lookupKey_removeKey_self] at hlk3
        cases hlk3
      · intro hh
        rw [hres, hP]
        exact lookupKey_removeKey_self m uid
    · have hP : broadcastPrune m uid conns2 failed =
          setKey m uid (conns2.filter (fun c => !(failed.contains c.connection_id))) := by
        unfold broadcastPrune
        rw [if_neg hf, if_neg he]
      refine ⟨?_, ?_, ?_, hnoop⟩
      · intro c hc hlive
        rw [hres, hP, lookupKey_setKey_self]
        refine ⟨_, rfl, ?_⟩
        have hmem2 : { c with queue := c.queue ++ [msg] } ∈ conns2 := by
          have h := broadcastSendAll_mem_live (m := msg) hc hlive
          rw [hsa] at h
          exact h
        refine List.mem_filter.mpr ⟨hmem2, ?_⟩
        have hni : c.connection_id ∉ failed := hlive_not c hc hlive
        simpa using hni
      · intro c hc hdead conns3 hlk3
        rw [hres, hP, lookupKey_setKey_self] at hlk3
        injection hlk3 with hlk4
        intro hmemid
        rw [← hlk4] at hmemid
        obtain ⟨x, hx, hxid⟩ := List.mem_map.mp hmemid
        have hx2 := List.mem_filter.mp hx
        have hxnot : x.connection_id ∉ failed := by
          have := hx2.2
          simpa using this
        rw [hxid] at hxnot
        exact hxnot (hdead_mem c hc hdead)
      · intro hh
        exfalso
        have hfa := hall hh
        have hnil : conns2.filter (fun c => !(failed.contains c.connection_id)) = [] := by
          refine List.filter_eq_nil_iff.mpr ?_
          intro x hx hp
          have hxin : x.connection_id ∈ failed := by
            rw [hfa, ← hks]
            exact List.mem_map_of_mem _ hx
          rw [Bool.not_eq_true'] at hp
          rw [contains_iff_mem.symm.mp hxin] at hp
          cases hp
        rw [hnil] at he
        simp at he

/-- Witness for C7: two subscribers of `d`, one live and one dead; the
live one receives the frame and survives, the dead id 7 is pruned. -/
theorem broadcast_publish_prunes_failed_witness :
    (∃ conns2,
      lookupKey (broadcast_publish
          [("d", [⟨3, true, []⟩, ⟨7, false, []⟩])] "d" "text/plain" [112]).1 "d" =
        some conns2 ∧ BConn.mk 3 true [.text [112]] ∈ conns2) ∧
    (∀ conns2,
      lookupKey (broadcast_publish
          [("d", [⟨3, true, []⟩, ⟨7, false, []⟩])] "d" "text/plain" [112]).1 "d" =
        some conns2 → 7 ∉ conns2.map BConn.connection_id) := by
  have h := broadcast_publish_prunes_failed
    [("d", [⟨3, true, []⟩, ⟨7, false, []⟩])] "d" "text/plain" [112]
    [⟨3, true, []⟩, ⟨7, false, []⟩] (.text [112])
    (by decide) (by decide) (by decide) (by decide)
  exact ⟨h.1 ⟨3, true, []⟩ (by decide) rfl, fun c2 hc2 =>
    h.2.1 ⟨7, false, []⟩ (by decide) rfl c2 hc2⟩

end Notir
